import Mathlib

/-!
# Verification of `gp_emu/emulatorfunctions.py`

This file shallowly embeds the orchestration layer of the GP_emu_UQSA
emulator (`setup`, `train`, `plot` in `src/gp_emu/emulatorfunctions.py`)
and proves the frozen claims about it.

Two complementary embeddings are used:

* `Flow`: a state/trace model of `train`.  Every collaborator call that
  `train` makes (`llhoptimize_full`, `remake`, `mahalanobis_distance`,
  `indiv_standard_error`, `final_beliefs`, `final_design_points`,
  `incVinT`, `next_Vset`, `choose_new_V`) is a function from emulator
  state to (new state, emitted event).  The bodies of those collaborators
  live in `gp_emu._emulatorclasses` / `gp_emu._emulatoroptimise`, which
  are not part of the repository snapshot under verification, so their
  state effects are modelled from the spec (each such definition says so
  in its doc comment); the *order* in which `train` invokes them, and all
  of `train`'s control flow, are transcribed directly from the source.

* `Ident`: an object-identity model of `setup` and `plot`.  Python passes
  objects by reference; the model gives every constructed object a
  distinct numeric reference from a deterministic allocator and records
  every constructor call together with the references of its object
  arguments, so sharing claims become decidable statements about those
  references.

The Python `while` loop in `train` is modelled with a fuel parameter; a
theorem below shows the loop is insensitive to any fuel of at least
`noV - rounds`, which is the termination argument.
-/

namespace Flow

/-- Events emitted by the collaborator calls that `train` performs, in the
order `train` performs them.  The payloads record the arguments visible at
the call site in the source (`ise=2.0`, `is_final_build`). -/
inductive Ev where
  | optimizeFull : Ev
  | remakeT : Ev
  | remakeV : Ev
  | remakeP : Ev
  | mahal : Ev
  | indivSE (ise : ℚ) : Ev
  | beliefs (final : Bool) : Ev
  | designPts (final : Bool) : Ev
  | incVinT : Ev
  | nextVset : Ev
  | chooseNewV : Ev
deriving DecidableEq

/-- Modelled from the spec: the `TV_config` object of
`gp_emu._emulatorclasses` (not in src/).  Spec section 4.5: `noV`
validation blocks, a current-block index, automatic-promotion flag, and
the final-build request; `rounds` counts training rounds already consumed
so that the loop runs one round per validation set. -/
structure TVConfig where
  noV : Nat
  c : Nat
  rounds : Nat
  auto : Bool
  ftrain : Bool
deriving DecidableEq

/-- A regression state ("Data"): per spec section 3 its cached artifacts
are consistent with the hyperparameter values at the time of the last
`remake`, recorded here as the hyperparameter version stamp. -/
structure DataSt where
  parVersion : Nat
deriving DecidableEq

/-- The posterior's cached artifacts: hyperparameter version at last
`remake`, plus a snapshot of the training-block size at last `remake`
(spec section 3: artifacts go stale when hyperparameters or the
underlying blocks change). -/
structure PostSt where
  parVersion : Nat
  trainSnap : Nat
deriving DecidableEq

/-- One call of `final_design_points(E, is_final_build)`, recording the
state the external persistence collaborator observes at call time. -/
structure DesignRecord where
  final : Bool
  postPar : Nat
  par : Nat
  postTrainSnap : Nat
  trainSize : Nat
deriving DecidableEq

/-- The emulator aggregate as `train` sees it.  `par` is the version
counter of the single shared hyperparameter vector (bumped by each
in-place optimizer mutation), `trainSize`/`validationSize`/`vBlocks`
model the dataset partition, `world` stands for the numeric data the
diagnostics read (their exact values are irrelevant to every claim). -/
structure EmuState where
  par : Nat
  tv : TVConfig
  trainSize : Nat
  validationSize : Nat
  vBlocks : List Nat
  training : DataSt
  validation : DataSt
  post : PostSt
  world : Nat
  diagLog : List Nat
  designLog : List DesignRecord
deriving DecidableEq

/-- Modelled from the spec: `TV_config.auto_train` (not in src/) records
whether automatic promotion is enabled (source line 72 call site). -/
def auto_train (E : EmuState) (a : Bool) : EmuState :=
  {E with tv := {E.tv with auto := a}}

/-- Modelled from the spec: `TV_config.doing_training` (not in src/).
Spec sections 4.5/4.6: the loop runs while validation sets remain, one
round per set; without automatic promotion only the first round runs.
Returns the decision and the updated round bookkeeping. -/
def doing_training (tv : TVConfig) : Bool × TVConfig :=
  if tv.rounds < tv.noV ∧ (tv.rounds = 0 ∨ tv.auto = true) then
    (true, {tv with rounds := tv.rounds + 1})
  else
    (false, tv)

/-- Modelled from the spec: `TV_config.check_still_training` (not in
src/).  Spec section 4.5: promotion to the next validation block happens
when more blocks remain and automatic promotion is enabled; it depends
only on the partition state. -/
def check_still_training (tv : TVConfig) : Bool :=
  tv.auto && decide (tv.rounds < tv.noV)

/-- Modelled from the spec: `TV_config.do_final_build` (not in src/):
whether a final build was requested. -/
def do_final_build (tv : TVConfig) : Bool :=
  tv.ftrain

/-- Modelled from the spec: `Optimize.llhoptimize_full` (not in src/)
mutates the single shared hyperparameter vector in place (spec sections
3, 4.3); modelled as bumping its version counter. -/
def llhoptimize_full (E : EmuState) : EmuState × Ev :=
  ({E with par := E.par + 1}, Ev.optimizeFull)

/-- Modelled from the spec: `Data.remake` on `E.training` (not in src/)
rebuilds the cached artifacts against the current hyperparameters (spec
section 4.2). -/
def training_remake (E : EmuState) : EmuState × Ev :=
  ({E with training := ⟨E.par⟩}, Ev.remakeT)

/-- Modelled from the spec: `Data.remake` on `E.validation` (not in
src/). -/
def validation_remake (E : EmuState) : EmuState × Ev :=
  ({E with validation := ⟨E.par⟩}, Ev.remakeV)

/-- Modelled from the spec: `Posterior.remake` (not in src/) rebuilds the
posterior's cached artifacts from the current hyperparameters and the
current training block. -/
def post_remake (E : EmuState) : EmuState × Ev :=
  ({E with post := ⟨E.par, E.trainSize⟩}, Ev.remakeP)

/-- Modelled from the spec: `Posterior.mahalanobis_distance` (not in
src/) computes a scalar diagnostic from the validation data; its value is
modelled abstractly from `world` and the posterior state and is only
logged, never read by the control loop. -/
def mahalanobis_distance (E : EmuState) : EmuState × Ev :=
  ({E with diagLog := (E.world + E.post.parVersion + E.validationSize) :: E.diagLog},
   Ev.mahal)

/-- Modelled from the spec: `Posterior.indiv_standard_error` (not in
src/) flags validation points whose standardized error exceeds the
threshold `ise`; the flags are modelled abstractly and only logged.  The
source call site passes `ise=2.0` (line 86), modelled as the exact
rational 2. -/
def indiv_standard_error (ise : ℚ) (E : EmuState) : EmuState × Ev :=
  ({E with diagLog := (E.world + E.trainSize) :: E.diagLog}, Ev.indivSE ise)

/-- `Beliefs.final_beliefs(E, is_final_build)`: external persistence
collaborator (spec section 6); no effect on the emulator state. -/
def final_beliefs (final : Bool) (E : EmuState) : EmuState × Ev :=
  (E, Ev.beliefs final)

/-- `Posterior.final_design_points(E, is_final_build)`: external
persistence collaborator (spec section 6); records the state it is shown
at call time. -/
def final_design_points (final : Bool) (E : EmuState) : EmuState × Ev :=
  ({E with designLog :=
      ⟨final, E.post.parVersion, E.par, E.post.trainSnap, E.trainSize⟩ :: E.designLog},
   Ev.designPts final)

/-- Modelled from the spec: `Posterior.incVinT` (not in src/) folds the
current validation block into the training block (spec sections 4.5, 8:
the training block grows by exactly the current validation block's
size). -/
def post_incVinT (E : EmuState) : EmuState × Ev :=
  ({E with trainSize := E.trainSize + E.validationSize}, Ev.incVinT)

/-- Modelled from the spec: `TV_config.next_Vset` (not in src/) advances
the current-validation-block index. -/
def next_Vset (E : EmuState) : EmuState × Ev :=
  ({E with tv := {E.tv with c := E.tv.c + 1}}, Ev.nextVset)

/-- Modelled from the spec: `All_Data.choose_new_V` (not in src/) loads
the new current validation block into the validation `Data` object. -/
def choose_new_V (E : EmuState) : EmuState × Ev :=
  ({E with validationSize := E.vBlocks.getD E.tv.c 0}, Ev.chooseNewV)

/-- The body of `train`'s while loop, transcribed from source lines
77-100: optimize, remake training/validation/posterior, the two
diagnostics, the two persistence calls, then — when still training —
fold, advance, reload validation, and remake the three states again. -/
def roundStep (E : EmuState) : EmuState × List Ev :=
  let s1 := llhoptimize_full E
  let s2 := training_remake s1.1
  let s3 := validation_remake s2.1
  let s4 := post_remake s3.1
  let s5 := mahalanobis_distance s4.1
  let s6 := indiv_standard_error 2 s5.1
  let s7 := final_beliefs false s6.1
  let s8 := final_design_points false s7.1
  if check_still_training s8.1.tv then
    let s9 := post_incVinT s8.1
    let s10 := next_Vset s9.1
    let s11 := choose_new_V s10.1
    let s12 := training_remake s11.1
    let s13 := validation_remake s12.1
    let s14 := post_remake s13.1
    (s14.1, [s1.2, s2.2, s3.2, s4.2, s5.2, s6.2, s7.2, s8.2,
             s9.2, s10.2, s11.2, s12.2, s13.2, s14.2])
  else
    (s8.1, [s1.2, s2.2, s3.2, s4.2, s5.2, s6.2, s7.2, s8.2])

/-- `while E.tv_conf.doing_training():` (source line 75), with explicit
fuel; `train` supplies fuel `noV`, which the stability theorem below
shows is always enough. -/
def trainLoop : Nat → EmuState → EmuState × List Ev
  | 0, E => (E, [])
  | fuel + 1, E =>
    let g := doing_training E.tv
    if g.1 then
      let r := roundStep {E with tv := g.2}
      let rest := trainLoop fuel r.1
      (rest.1, r.2 ++ rest.2)
    else
      (E, [])

/-- `train(E, auto, message)`, source lines 58-119: the validation loop
followed by the optional final build (fold only when `noV != 0`, remake,
full optimization, remake, persist with `is_final_build = True`). -/
def train (E : EmuState) (a : Bool) : EmuState × List Ev :=
  let E0 := auto_train E a
  let lp := trainLoop E0.tv.noV E0
  if do_final_build lp.1.tv then
    let f0 := if lp.1.tv.noV ≠ 0 then
                let s := post_incVinT lp.1
                (s.1, [s.2])
              else
                (lp.1, ([] : List Ev))
    let f1 := training_remake f0.1
    let f2 := llhoptimize_full f1.1
    let f3 := training_remake f2.1
    let f4 := final_beliefs true f3.1
    let f5 := final_design_points true f4.1
    (f5.1, lp.2 ++ f0.2 ++ [f1.2, f2.2, f3.2, f4.2, f5.2])
  else
    (lp.1, lp.2)

/-- The per-round event sequence exactly as the spec's control loop
(section 4.6, steps 1-5) describes it; `cont` is whether more validation
blocks remain. -/
def spec_round_events (cont : Bool) : List Ev :=
  [Ev.optimizeFull, Ev.remakeT, Ev.remakeV, Ev.remakeP,
   Ev.mahal, Ev.indivSE 2, Ev.beliefs false, Ev.designPts false]
    ++ (if cont then
          [Ev.incVinT, Ev.nextVset, Ev.chooseNewV,
           Ev.remakeT, Ev.remakeV, Ev.remakeP]
        else [])

/-- The final-build event sequence as the spec describes it (section 4.6
after-loop paragraph): fold only when the dataset had validation blocks,
then remake, full optimization, remake, final persistence. -/
def spec_final_events (noV : Nat) : List Ev :=
  (if noV ≠ 0 then [Ev.incVinT] else [])
    ++ [Ev.remakeT, Ev.optimizeFull, Ev.remakeT,
        Ev.beliefs true, Ev.designPts true]

/-- Does an event carry an `indiv_standard_error` threshold other than 2
(the modelled `ise=2.0`)? -/
def iseOtherThanTwo : Ev → Bool
  | Ev.indivSE q => decide (q ≠ 2)
  | _ => false

/-- Consistency of the cached regression artifacts with the current
hyperparameters and partition: what holds at `setup` exit and is
re-established by every round. -/
def WfCore (E : EmuState) : Prop :=
  E.training.parVersion = E.par ∧ E.validation.parVersion = E.par ∧
    E.post.parVersion = E.par ∧ E.post.trainSnap = E.trainSize

/-- A freshly set-up emulator: consistent caches and no rounds consumed
yet. -/
def Wf (E : EmuState) : Prop :=
  WfCore E ∧ E.tv.rounds = 0

end Flow

namespace Ident

/-- The kind of object a constructor call produced. -/
inductive Kind where
  | config : Kind
  | beliefsK : Kind
  | hyperparams : Kind
  | basisK : Kind
  | tvconf : Kind
  | alldata : Kind
  | kernel : Kind
  | dataObj : Kind
  | posterior : Kind
  | optimizeObj : Kind
  | emulator : Kind
deriving DecidableEq

/-- One constructor call performed by `setup`: the kind of object built
and the references of the already-constructed objects passed to it, in
call order. -/
structure Call where
  kind : Kind
  args : List Nat
deriving DecidableEq

/-- The parsed configuration contents (the `Config` collaborator's data,
spec section 6): raw inputs/outputs and the `(k, c, noV)` split plan. -/
structure ConfigIn where
  inputs : List (List ℚ)
  outputs : List ℚ
  tv_k : Nat
  tv_c : Nat
  tv_noV : Nat
deriving DecidableEq

/-- The beliefs record; `output` is the output index `plot` prints in its
default y label (source line 151). -/
structure BeliefsObj where
  ref : Nat
  output : Nat
deriving DecidableEq

/-- The single shared hyperparameter vector, identified by reference. -/
structure Hyperparams where
  ref : Nat
deriving DecidableEq

/-- The kernel object built by `build_kernel`, identified by reference. -/
structure Kernel where
  ref : Nat
deriving DecidableEq

/-- A `Data` regression state: its block plus the references of the
basis, hyperparameter, beliefs and kernel objects its constructor
received (source lines 47-48, 174). -/
structure Data where
  ref : Nat
  inputs : List (List ℚ)
  outputs : Option (List ℚ)
  basisRef : Nat
  parRef : Nat
  beliefsRef : Nat
  kRef : Nat
deriving DecidableEq

/-- A `Posterior`: the target `Data`, the trained `Data`, and the shared
objects its constructor received (source lines 49, 175). -/
structure Posterior where
  ref : Nat
  dataRef : Nat
  trainingRef : Nat
  parRef : Nat
  beliefsRef : Nat
  kRef : Nat
deriving DecidableEq

/-- An `Optimize` instance: the objects its constructor received (source
line 50 — training, basis, par, beliefs, config; no kernel argument). -/
structure Optimize where
  ref : Nat
  trainingRef : Nat
  basisRef : Nat
  parRef : Nat
  beliefsRef : Nat
  configRef : Nat
deriving DecidableEq

/-- The `Emulator` aggregate returned by `setup` (source lines 52-54).
`nextRef` is the allocator state: every reference below it names an
object constructed during `setup`. -/
structure Emulator where
  ref : Nat
  configRef : Nat
  beliefs : BeliefsObj
  par : Hyperparams
  basisRef : Nat
  tvRef : Nat
  allDataRef : Nat
  training : Data
  validation : Data
  post : Posterior
  opt : Optimize
  K : Kernel
  nextRef : Nat
deriving DecidableEq

/-- Modelled from the spec: `All_Data.choose_T` (not in src/).  The data
is cut into `k` equal sets; sets `c, …, c+noV-1` are the validation
blocks and the rest is the training block. -/
def choose_T (cfg : ConfigIn) : List (List ℚ) × List ℚ :=
  let s := cfg.inputs.length / cfg.tv_k
  (cfg.inputs.take (cfg.tv_c * s) ++ cfg.inputs.drop ((cfg.tv_c + cfg.tv_noV) * s),
   cfg.outputs.take (cfg.tv_c * s) ++ cfg.outputs.drop ((cfg.tv_c + cfg.tv_noV) * s))

/-- Modelled from the spec: `All_Data.choose_V` (not in src/): the first
validation block is set `c`. -/
def choose_V (cfg : ConfigIn) : List (List ℚ) × List ℚ :=
  let s := cfg.inputs.length / cfg.tv_k
  ((cfg.inputs.drop (cfg.tv_c * s)).take s,
   (cfg.outputs.drop (cfg.tv_c * s)).take s)

/-- `setup(config_file, datashuffle, scaleinputs)`, source lines 13-54,
with object construction made explicit: objects are allocated in source
order with consecutive references (config 0, beliefs 1, par 2, basis 3,
tv_conf 4, all_data 5, K 6, training 7, validation 8, post 9, opt 10,
emulator 11) and every constructor call is recorded with the references
of its object arguments. -/
def setup (cfg : ConfigIn) : Emulator × List Call :=
  let xyT := choose_T cfg
  let xyV := choose_V cfg
  let beliefs : BeliefsObj := ⟨1, 0⟩
  let par : Hyperparams := ⟨2⟩
  let K : Kernel := ⟨6⟩
  let training : Data := ⟨7, xyT.1, some xyT.2, 3, par.ref, beliefs.ref, K.ref⟩
  let validation : Data := ⟨8, xyV.1, some xyV.2, 3, par.ref, beliefs.ref, K.ref⟩
  let post : Posterior := ⟨9, validation.ref, training.ref, par.ref, beliefs.ref, K.ref⟩
  let opt : Optimize := ⟨10, training.ref, 3, par.ref, beliefs.ref, 0⟩
  let E : Emulator := ⟨11, 0, beliefs, par, 3, 4, 5, training, validation, post, opt, K, 12⟩
  (E, [⟨Kind.config, []⟩,
       ⟨Kind.beliefsK, [0]⟩,
       ⟨Kind.hyperparams, [1]⟩,
       ⟨Kind.basisK, [1]⟩,
       ⟨Kind.tvconf, [0]⟩,
       ⟨Kind.alldata, [0, 4, 1, 2]⟩,
       ⟨Kind.kernel, [1]⟩,
       ⟨Kind.dataObj, [3, 2, 1, 6]⟩,
       ⟨Kind.dataObj, [3, 2, 1, 6]⟩,
       ⟨Kind.posterior, [8, 7, 2, 1, 6]⟩,
       ⟨Kind.optimizeObj, [7, 3, 2, 1, 0]⟩,
       ⟨Kind.emulator, [0, 1, 2, 3, 4, 5, 7, 8, 9, 10, 6]⟩])

/-- The claim that `setup` builds exactly one hyperparameter object and
exactly one kernel and passes *both* to each of the training `Data`,
validation `Data`, `Posterior`, `Optimize` constructors and the
`Emulator` aggregate. -/
def sharedToAllFive (cfg : ConfigIn) : Bool :=
  let p := setup cfg
  ((p.2.filter (fun cl => cl.kind == Kind.hyperparams)).length == 1)
    && ((p.2.filter (fun cl => cl.kind == Kind.kernel)).length == 1)
    && ((p.2.filter (fun cl =>
          cl.kind == Kind.dataObj || cl.kind == Kind.posterior
            || cl.kind == Kind.optimizeObj || cl.kind == Kind.emulator)).all
        (fun cl => cl.args.contains p.1.par.ref && cl.args.contains p.1.K.ref))

/-- The label computation of `plot`, source lines 145-167, with Python's
list indexing made explicit: `customLabels == []` selects the default
labels, any other list is read at indices 0 and 1, and an out-of-range
index is `none` (Python's `IndexError`). -/
def plotLabels (dim : Nat) (plot_dims : List Nat) (output : Nat)
    (customLabels : List String) : Option (String × String) :=
  if plot_dims.length = 1 ∧ 1 < dim then
    if customLabels = [] then
      match plot_dims.get? 0 with
      | none => none
      | some p0 => some ("input " ++ toString p0, "output " ++ toString output)
    else
      match customLabels.get? 0, customLabels.get? 1 with
      | some x, some y => some (x, y)
      | _, _ => none
  else
    if customLabels = [] then
      match plot_dims.get? 0 with
      | none => none
      | some p0 =>
        if dim = 1 then
          some ("input " ++ toString p0, "output ")
        else
          match plot_dims.get? 1 with
          | none => none
          | some p1 => some ("input " ++ toString p0, "input " ++ toString p1)
    else
      match customLabels.get? 0, customLabels.get? 1 with
      | some x, some y => some (x, y)
      | _, _ => none

/-- Modelled from the spec: `make_inputs` from `gp_emu.emulatorplotting`
(not in src/): builds the synthetic prediction grid of `pn1` (1-D) or
`pn1 * pn2` (2-D) points of dimension `dim`, sweeping the dimensions in
`plot_dims` over the unit range while holding dimension `fixed_dims[j]`
at `fixed_vals[j]`. -/
def make_inputs (dim pn1 pn2 : Nat) (plot_dims fixed_dims : List Nat)
    (fixed_vals : List ℚ) (one_d : Bool) : List (List ℚ) :=
  let npts := if one_d then pn1 else pn1 * pn2
  (List.range npts).map (fun i =>
    (List.range dim).map (fun d =>
      match fixed_dims.findIdx? (fun a => a = d) with
      | some j => fixed_vals.getD j 0
      | none =>
        if one_d ∨ plot_dims.getD 0 dim = d then
          (i % pn1 : ℚ) / pn1
        else
          (i / pn1 : ℚ) / pn2))

/-- What a successful `plot` call hands to the plotting collaborator
(source lines 169-178): the resolution, the dimensionality, the 1-D/2-D
choice, the labels, the freshly built prediction `Data` and the
`Posterior` pairing it with the existing training state. -/
structure PlotResult where
  dim : Nat
  pn : Nat
  one_d : Bool
  xlabel : String
  ylabel : String
  predict : Data
  post : Posterior
deriving DecidableEq

/-- `plot(E, plot_dims, fixed_dims, fixed_vals, mean_or_var,
customLabels)`, source lines 123-180.  The emulator is threaded through
unchanged (the source never assigns to any attribute of `E`); `none`
models the `IndexError` raised by `E.training.inputs[0]` on an empty
training block (line 140) or by the label indexing (lines 150-167).
`mean_or_var` is only forwarded to the external rendering collaborator
and is ignored here. -/
def plot (E : Emulator) (plot_dims fixed_dims : List Nat)
    (fixed_vals : List ℚ) (mean_or_var : String) (customLabels : List String) :
    Option (PlotResult × Emulator) :=
  match E.training.inputs.get? 0 with
  | none => none
  | some x0 =>
    let dim := x0.length
    let one_d := plot_dims.length == 1 && dim > 1
    match plotLabels dim plot_dims E.beliefs.output customLabels with
    | none => none
    | some xy =>
      let pn := 30
      let full_xrange := make_inputs dim pn pn plot_dims fixed_dims fixed_vals one_d
      let predict : Data :=
        ⟨E.nextRef, full_xrange, none, E.basisRef, E.par.ref, E.beliefs.ref, E.K.ref⟩
      let post : Posterior :=
        ⟨E.nextRef + 1, predict.ref, E.training.ref, E.par.ref, E.beliefs.ref, E.K.ref⟩
      some (⟨dim, pn, one_d, xy.1, xy.2, predict, post⟩, E)

end Ident

namespace Flow

/-- Claim C1, formalized: one iteration of the training loop is exactly
one round; the round's event trace is exactly the spec's order
(optimize, remake x3, Mahalanobis, standardized errors at 2.0, persist
beliefs then design points with `is_final_build = False`, and — iff more
validation remains — fold, advance, reload, remake x3); and the state
`D` handed to the diagnostics has all three regression states rebuilt
under the just-bumped hyperparameter version. -/
def c1Prop (E : EmuState) (fuel : Nat) : Prop :=
  let B := {E with tv := (doing_training E.tv).2}
  let D := (post_remake (validation_remake (training_remake
             (llhoptimize_full B).1).1).1).1
  trainLoop (fuel + 1) E =
      ((trainLoop fuel (roundStep B).1).1,
       (roundStep B).2 ++ (trainLoop fuel (roundStep B).1).2)
    ∧ (roundStep B).2 = spec_round_events (check_still_training B.tv)
    ∧ D.par = E.par + 1
    ∧ D.training.parVersion = D.par
    ∧ D.validation.parVersion = D.par
    ∧ D.post.parVersion = D.par
    ∧ D.post.trainSnap = D.trainSize

/-- Claim C2, formalized: when a final build is requested the whole trace
of `train` is the loop trace followed by exactly the final-build sequence
(fold iff `noV ≠ 0`, remake, full optimization, remake, persist with
`is_final_build = True`). -/
def c2Prop (E : EmuState) (a : Bool) : Prop :=
  (train E a).2 = (trainLoop E.tv.noV (auto_train E a)).2
    ++ spec_final_events E.tv.noV

/-- Claim C5, formalized: the trace (hence every collaborator call and
its order) and the resulting partition state of `train` are functions of
the partition configuration alone — two emulators agreeing on `tv` (but
possibly differing in data, diagnostics, caches) produce identical
traces and partition evolution — and every standardized-error call in
the trace uses threshold 2. -/
def c5Prop (E F : EmuState) (a : Bool) : Prop :=
  (train E a).2 = (train F a).2
    ∧ (train E a).1.tv = (train F a).1.tv
    ∧ (train E a).2.all (fun e => !(iseOtherThanTwo e)) = true

/-- Claim C6, formalized: the loop is insensitive to any fuel of at least
`noV` (it exits once validation sets are exhausted), at most one
Mahalanobis diagnostic — i.e. at most one round — happens per validation
set, and the final build's persistence happens at most once. -/
def c6Prop (E : EmuState) (a : Bool) (f : Nat) : Prop :=
  trainLoop f (auto_train E a) = trainLoop (E.tv.noV) (auto_train E a)
    ∧ (train E a).2.count Ev.mahal ≤ E.tv.noV
    ∧ (train E a).2.count (Ev.beliefs true) ≤ 1

/-- Claim C7, formalized: in the final-build branch the validation and
posterior states are exactly what they were when the loop exited (only
training is remade), the hyperparameter version advances once more, and
the final `final_design_points(E, True)` call observes a posterior whose
cache carries the pre-final-optimization version and the pre-fold
training-block size. -/
def c7Prop (E : EmuState) (a : Bool) : Prop :=
  let L := (trainLoop E.tv.noV (auto_train E a)).1
  let F := (train E a).1
  F.validation = L.validation
    ∧ F.post = L.post
    ∧ F.par = L.par + 1
    ∧ F.training.parVersion = F.par
    ∧ L.post.parVersion = L.par
    ∧ L.post.trainSnap = L.trainSize
    ∧ F.trainSize = L.trainSize + (if E.tv.noV = 0 then 0 else L.validationSize)
    ∧ F.designLog.head? = some ⟨true, L.par, L.par + 1, L.trainSize, F.trainSize⟩

/-- A concrete freshly-set-up emulator state: two validation blocks of
size 2, training block of size 4, final build requested. -/
def E0 : EmuState :=
  ⟨0, ⟨2, 0, 0, true, true⟩, 4, 2, [2, 2], ⟨0⟩, ⟨0⟩, ⟨0, 4⟩, 7, [], []⟩

/-- `E0` with different raw diagnostic data (`world`), same partition. -/
def F0 : EmuState :=
  ⟨0, ⟨2, 0, 0, true, true⟩, 4, 2, [2, 2], ⟨0⟩, ⟨0⟩, ⟨0, 4⟩, 9, [], []⟩

end Flow

namespace Ident

/-- Claim C4 as amended: one hyperparameter object, one kernel; `par` is
passed to all five constructors, `K` to the two `Data` constructors, the
`Posterior` constructor and the `Emulator` aggregate but *not* to the
`Optimize` constructor, which receives the kernel only through the
shared training `Data`. -/
def c4AmendedProp (cfg : ConfigIn) : Prop :=
  let p := setup cfg
  (p.2.filter (fun cl => cl.kind == Kind.hyperparams)).length = 1
    ∧ (p.2.filter (fun cl => cl.kind == Kind.kernel)).length = 1
    ∧ p.1.training.parRef = p.1.par.ref
    ∧ p.1.validation.parRef = p.1.par.ref
    ∧ p.1.post.parRef = p.1.par.ref
    ∧ p.1.opt.parRef = p.1.par.ref
    ∧ p.1.training.kRef = p.1.K.ref
    ∧ p.1.validation.kRef = p.1.K.ref
    ∧ p.1.post.kRef = p.1.K.ref
    ∧ p.1.opt.trainingRef = p.1.training.ref
    ∧ ((p.2.filter (fun cl => cl.kind == Kind.optimizeObj)).all
        (fun cl => !(cl.args.contains p.1.K.ref))) = true
    ∧ ((p.2.filter (fun cl => cl.kind == Kind.optimizeObj)).all
        (fun cl => cl.args.contains p.1.par.ref)) = true
    ∧ ((p.2.filter (fun cl => cl.kind == Kind.dataObj || cl.kind == Kind.posterior
          || cl.kind == Kind.emulator)).all
        (fun cl => cl.args.contains p.1.par.ref && cl.args.contains p.1.K.ref)) = true

/-- Claim C8, formalized: a successful `plot` leaves the emulator exactly
as it was and hands the renderer a freshly allocated prediction `Data`
(no outputs, the swept grid) paired by a freshly allocated `Posterior`
with the emulator's existing training state and shared objects. -/
def c8Prop (E : Emulator) (pd fd : List Nat) (fv : List ℚ)
    (r : PlotResult) (F : Emulator) : Prop :=
  F = E
    ∧ r.post.trainingRef = E.training.ref
    ∧ r.post.dataRef = r.predict.ref
    ∧ r.predict.ref = E.nextRef
    ∧ r.post.ref = E.nextRef + 1
    ∧ r.predict.outputs = none
    ∧ r.predict.parRef = E.par.ref
    ∧ r.predict.kRef = E.K.ref
    ∧ r.post.parRef = E.par.ref
    ∧ r.post.kRef = E.K.ref
    ∧ r.predict.inputs = make_inputs r.dim r.pn r.pn pd fd fv r.one_d

/-- Claim C9, formalized: a successful `plot` always uses resolution 30,
takes the dimensionality from the first training input vector, and
builds the prediction `Data` with no outputs. -/
def c9Prop (E : Emulator) (r : PlotResult) : Prop :=
  r.pn = 30
    ∧ r.dim = (E.training.inputs.headD []).length
    ∧ r.predict.outputs = none

/-- Claim C10, formalized: with a one-element `customLabels` the label
construction hits an out-of-range index in every branch, so `plot`
fails. -/
def c10Prop (dim : Nat) (pd : List Nat) (output : Nat) (E : Emulator)
    (fd : List Nat) (fv : List ℚ) (mv : String) (cl : List String) : Prop :=
  plotLabels dim pd output cl = none ∧ plot E pd fd fv mv cl = none

/-- A concrete configuration: four 1-dimensional points cut into four
sets, set 2 being the single validation block. -/
def cfg0 : ConfigIn :=
  ⟨[[0], [1], [2], [3]], [0, 1, 2, 3], 4, 2, 1⟩

/-- The emulator `setup` builds from `cfg0`. -/
def E1 : Emulator := (setup cfg0).1

/-- A placeholder plot result, used only as the default of `Option.getD`
below. -/
def dummyPR : PlotResult × Emulator :=
  (⟨0, 0, false, "", "", ⟨0, [], none, 0, 0, 0, 0⟩, ⟨0, 0, 0, 0, 0, 0⟩⟩, E1)

/-- The result of a concrete successful `plot` call with default
labels. -/
def plotOut1 : PlotResult × Emulator :=
  (plot E1 [0] [] [] "mean" []).getD dummyPR

/-- The result of a concrete successful `plot` call with two custom
labels. -/
def plotOut2 : PlotResult × Emulator :=
  (plot E1 [0] [] [] "var" ["x", "y"]).getD dummyPR

end Ident

namespace Flow

theorem dt_true_iff (tv : TVConfig) :
    (doing_training tv).1 = true ↔
      (tv.rounds < tv.noV ∧ (tv.rounds = 0 ∨ tv.auto = true)) := by
  unfold doing_training
  split <;> simp_all

theorem dt_snd_of_true {tv : TVConfig} (h : (doing_training tv).1 = true) :
    (doing_training tv).2 = {tv with rounds := tv.rounds + 1} := by
  rw [doing_training, if_pos ((dt_true_iff tv).mp h)]

theorem roundStep_trace (E : EmuState) :
    (roundStep E).2 = spec_round_events (check_still_training E.tv) := by
  unfold roundStep spec_round_events llhoptimize_full training_remake
    validation_remake post_remake mahalanobis_distance indiv_standard_error
    final_beliefs final_design_points post_incVinT next_Vset choose_new_V
  split <;> simp_all

theorem roundStep_tv (E : EmuState) :
    (roundStep E).1.tv =
      if check_still_training E.tv then {E.tv with c := E.tv.c + 1} else E.tv := by
  unfold roundStep llhoptimize_full training_remake
    validation_remake post_remake mahalanobis_distance indiv_standard_error
    final_beliefs final_design_points post_incVinT next_Vset choose_new_V
  split <;> simp_all

theorem roundStep_noV (E : EmuState) : (roundStep E).1.tv.noV = E.tv.noV := by
  rw [roundStep_tv]; split <;> rfl

theorem roundStep_rounds (E : EmuState) :
    (roundStep E).1.tv.rounds = E.tv.rounds := by
  rw [roundStep_tv]; split <;> rfl

theorem roundStep_auto (E : EmuState) :
    (roundStep E).1.tv.auto = E.tv.auto := by
  rw [roundStep_tv]; split <;> rfl

theorem roundStep_ftrain (E : EmuState) :
    (roundStep E).1.tv.ftrain = E.tv.ftrain := by
  rw [roundStep_tv]; split <;> rfl

theorem roundStep_trainSize_le (E : EmuState) :
    E.trainSize ≤ (roundStep E).1.trainSize := by
  simp only [roundStep, llhoptimize_full, training_remake,
    validation_remake, post_remake, mahalanobis_distance, indiv_standard_error,
    final_beliefs, final_design_points, post_incVinT, next_Vset, choose_new_V]
  split <;> simp

theorem roundStep_wfcore (E : EmuState) : WfCore (roundStep E).1 := by
  simp only [WfCore, roundStep, llhoptimize_full, training_remake,
    validation_remake, post_remake, mahalanobis_distance, indiv_standard_error,
    final_beliefs, final_design_points, post_incVinT, next_Vset, choose_new_V]
  split <;> simp

theorem trainLoop_succ_pos {E : EmuState} (fuel : Nat)
    (h : (doing_training E.tv).1 = true) :
    trainLoop (fuel + 1) E =
      ((trainLoop fuel (roundStep {E with tv := (doing_training E.tv).2}).1).1,
       (roundStep {E with tv := (doing_training E.tv).2}).2
         ++ (trainLoop fuel (roundStep {E with tv := (doing_training E.tv).2}).1).2) := by
  rw [trainLoop]
  simp only [h, if_true]

theorem trainLoop_succ_neg {E : EmuState} (fuel : Nat)
    (h : (doing_training E.tv).1 = false) :
    trainLoop (fuel + 1) E = (E, []) := by
  rw [trainLoop]
  simp only [h, Bool.false_eq_true, if_false]

theorem dt_false_of_done {tv : TVConfig} (h : tv.noV ≤ tv.rounds) :
    (doing_training tv).1 = false := by
  rw [doing_training, if_neg]
  intro hc
  exact absurd hc.1 (by omega)

theorem trainLoop_stable :
    ∀ (f1 : Nat) (E : EmuState) (f2 : Nat),
      E.tv.noV - E.tv.rounds ≤ f1 → f1 ≤ f2 → trainLoop f2 E = trainLoop f1 E := by
  intro f1
  induction f1 with
  | zero =>
    intro E f2 h _
    have hg : (doing_training E.tv).1 = false := dt_false_of_done (by omega)
    cases f2 with
    | zero => rfl
    | succ m => rw [trainLoop_succ_neg m hg]; rfl
  | succ f ih =>
    intro E f2 h hle
    cases f2 with
    | zero => omega
    | succ m =>
      by_cases hg : (doing_training E.tv).1 = true
      · rw [trainLoop_succ_pos m hg, trainLoop_succ_pos f hg]
        have hlt : E.tv.rounds < E.tv.noV := ((dt_true_iff E.tv).mp hg).1
        have hrec : ((roundStep {E with tv := (doing_training E.tv).2}).1).tv.noV
              - ((roundStep {E with tv := (doing_training E.tv).2}).1).tv.rounds ≤ f := by
          rw [roundStep_noV, roundStep_rounds, dt_snd_of_true hg]
          simp only []
          omega
        rw [ih _ m hrec (by omega)]
      · have hg' : (doing_training E.tv).1 = false := by
          cases hx : (doing_training E.tv).1
          · rfl
          · exact absurd hx hg
        rw [trainLoop_succ_neg m hg', trainLoop_succ_neg f hg']

theorem dt_snd_noV (tv : TVConfig) : ((doing_training tv).2).noV = tv.noV := by
  unfold doing_training
  split <;> rfl

theorem dt_snd_ftrain (tv : TVConfig) :
    ((doing_training tv).2).ftrain = tv.ftrain := by
  unfold doing_training
  split <;> rfl

theorem trainLoop_noV (f : Nat) :
    ∀ E : EmuState, ((trainLoop f E).1).tv.noV = E.tv.noV := by
  induction f with
  | zero => intro E; rfl
  | succ n ih =>
    intro E
    by_cases hg : (doing_training E.tv).1 = true
    · rw [trainLoop_succ_pos n hg]
      simp only [ih, roundStep_noV]
      exact dt_snd_noV E.tv
    · rw [trainLoop_succ_neg n (by cases hx : (doing_training E.tv).1 <;> simp_all)]

theorem trainLoop_ftrain (f : Nat) :
    ∀ E : EmuState, ((trainLoop f E).1).tv.ftrain = E.tv.ftrain := by
  induction f with
  | zero => intro E; rfl
  | succ n ih =>
    intro E
    by_cases hg : (doing_training E.tv).1 = true
    · rw [trainLoop_succ_pos n hg]
      simp only [ih, roundStep_ftrain]
      exact dt_snd_ftrain E.tv
    · rw [trainLoop_succ_neg n (by cases hx : (doing_training E.tv).1 <;> simp_all)]

theorem trainLoop_wfcore (f : Nat) :
    ∀ E : EmuState, WfCore E → WfCore (trainLoop f E).1 := by
  induction f with
  | zero => intro E h; exact h
  | succ n ih =>
    intro E h
    by_cases hg : (doing_training E.tv).1 = true
    · rw [trainLoop_succ_pos n hg]
      exact ih _ (roundStep_wfcore _)
    · rw [trainLoop_succ_neg n (by cases hx : (doing_training E.tv).1 <;> simp_all)]
      exact h

theorem trainLoop_trainSize_le (f : Nat) :
    ∀ E : EmuState, E.trainSize ≤ ((trainLoop f E).1).trainSize := by
  induction f with
  | zero => intro E; exact Nat.le_refl _
  | succ n ih =>
    intro E
    by_cases hg : (doing_training E.tv).1 = true
    · rw [trainLoop_succ_pos n hg]
      exact Nat.le_trans
        (roundStep_trainSize_le {E with tv := (doing_training E.tv).2})
        (ih (roundStep {E with tv := (doing_training E.tv).2}).1)
    · rw [trainLoop_succ_neg n (by cases hx : (doing_training E.tv).1 <;> simp_all)]

theorem spec_round_events_mahal (c : Bool) :
    (spec_round_events c).count Ev.mahal = 1 := by
  cases c <;> decide

theorem spec_round_events_no_beliefsT (c : Bool) :
    (spec_round_events c).count (Ev.beliefs true) = 0 := by
  cases c <;> decide

theorem trainLoop_mahal_le (f : Nat) :
    ∀ E : EmuState,
      ((trainLoop f E).2).count Ev.mahal ≤ E.tv.noV - E.tv.rounds := by
  induction f with
  | zero => intro E; simp [trainLoop]
  | succ n ih =>
    intro E
    by_cases hg : (doing_training E.tv).1 = true
    · have hlt : E.tv.rounds < E.tv.noV := ((dt_true_iff E.tv).mp hg).1
      rw [trainLoop_succ_pos n hg, dt_snd_of_true hg]
      simp only [List.count_append, roundStep_trace, spec_round_events_mahal]
      have h2 := ih (roundStep {E with tv := {E.tv with rounds := E.tv.rounds + 1}}).1
      rw [roundStep_noV, roundStep_rounds] at h2
      simp only [] at h2
      omega
    · rw [trainLoop_succ_neg n (by cases hx : (doing_training E.tv).1 <;> simp_all)]
      simp

theorem trainLoop_no_beliefsT (f : Nat) :
    ∀ E : EmuState, ((trainLoop f E).2).count (Ev.beliefs true) = 0 := by
  induction f with
  | zero => intro E; simp [trainLoop]
  | succ n ih =>
    intro E
    by_cases hg : (doing_training E.tv).1 = true
    · rw [trainLoop_succ_pos n hg]
      simp only [List.count_append, ih]
      rw [roundStep_trace, spec_round_events_no_beliefsT]
    · rw [trainLoop_succ_neg n (by cases hx : (doing_training E.tv).1 <;> simp_all)]
      simp

theorem spec_round_events_ise (c : Bool) :
    (spec_round_events c).all (fun e => !(iseOtherThanTwo e)) = true := by
  cases c <;> decide

theorem trainLoop_ise (f : Nat) :
    ∀ E : EmuState,
      ((trainLoop f E).2).all (fun e => !(iseOtherThanTwo e)) = true := by
  induction f with
  | zero => intro E; simp [trainLoop]
  | succ n ih =>
    intro E
    by_cases hg : (doing_training E.tv).1 = true
    · rw [trainLoop_succ_pos n hg]
      simp only [List.all_append, ih, Bool.and_true]
      rw [roundStep_trace]
      exact spec_round_events_ise _
    · rw [trainLoop_succ_neg n (by cases hx : (doing_training E.tv).1 <;> simp_all)]
      simp

theorem trainLoop_tv_det (f : Nat) :
    ∀ E F : EmuState, E.tv = F.tv →
      (trainLoop f E).2 = (trainLoop f F).2
        ∧ ((trainLoop f E).1).tv = ((trainLoop f F).1).tv := by
  induction f with
  | zero => intro E F h; exact ⟨rfl, h⟩
  | succ n ih =>
    intro E F h
    by_cases hg : (doing_training E.tv).1 = true
    · have hgF : (doing_training F.tv).1 = true := by rw [← h]; exact hg
      rw [trainLoop_succ_pos n hg, trainLoop_succ_pos n hgF]
      have htv : ((roundStep {E with tv := (doing_training E.tv).2}).1).tv
          = ((roundStep {F with tv := (doing_training F.tv).2}).1).tv := by
        rw [roundStep_tv, roundStep_tv]
        simp only [h]
      have hrec := ih (roundStep {E with tv := (doing_training E.tv).2}).1
        (roundStep {F with tv := (doing_training F.tv).2}).1 htv
      have htr : (roundStep {E with tv := (doing_training E.tv).2}).2
          = (roundStep {F with tv := (doing_training F.tv).2}).2 := by
        rw [roundStep_trace, roundStep_trace]
        simp only [h]
      exact ⟨by rw [htr, hrec.1], hrec.2⟩
    · have hg' : (doing_training E.tv).1 = false := by
        cases hx : (doing_training E.tv).1 <;> simp_all
      have hgF : (doing_training F.tv).1 = false := by rw [← h]; exact hg'
      rw [trainLoop_succ_neg n hg', trainLoop_succ_neg n hgF]
      exact ⟨rfl, h⟩

theorem train_trace_eq (E : EmuState) (a : Bool) :
    (train E a).2 = (trainLoop E.tv.noV (auto_train E a)).2
      ++ (if E.tv.ftrain = true then spec_final_events E.tv.noV else []) := by
  simp only [train]
  by_cases h : do_final_build ((trainLoop ((auto_train E a).tv.noV) (auto_train E a)).1).tv = true
  · rw [if_pos h]
    have hf : E.tv.ftrain = true := by
      unfold do_final_build at h
      rw [trainLoop_ftrain] at h
      exact h
    rw [if_pos hf]
    simp only [post_incVinT, training_remake, llhoptimize_full, final_beliefs,
      final_design_points, spec_final_events, trainLoop_noV, auto_train]
    split <;> simp
  · rw [if_neg h]
    have hf : ¬ E.tv.ftrain = true := by
      intro hc
      apply h
      unfold do_final_build
      rw [trainLoop_ftrain]
      exact hc
    rw [if_neg hf]
    simp [auto_train]

theorem train_tv_eq (E : EmuState) (a : Bool) :
    ((train E a).1).tv = ((trainLoop E.tv.noV (auto_train E a)).1).tv := by
  simp only [train]
  split
  · simp only [post_incVinT, training_remake, llhoptimize_full, final_beliefs,
      final_design_points]
    split <;> rfl
  · rfl

/-- C1: every validation round of `train` runs, in this exact order, the
full multi-start likelihood optimization, the remake of the training,
validation and posterior states, the Mahalanobis and per-point
standardized-error diagnostics, persistence of beliefs and design points
with `is_final_build = False`, and — iff more validation blocks remain —
the fold (`incVinT`), the partition advance (`next_Vset`,
`choose_new_V`) and a second remake of the three states; the state the
diagnostics receive has all three regression states rebuilt under the
just-optimized hyperparameters. -/
theorem train_round_order_c1 (E : EmuState) (fuel : Nat)
    (h : (doing_training E.tv).1 = true) : c1Prop E fuel := by
  simp only [c1Prop]
  refine ⟨trainLoop_succ_pos fuel h, ?_, rfl, rfl, rfl, rfl, rfl⟩
  rw [roundStep_trace]

/-- Witness for C1 at a concrete freshly-set-up emulator. -/
theorem train_round_order_c1_w :
    (doing_training E0.tv).1 = true ∧ c1Prop E0 1 :=
  ⟨by decide, train_round_order_c1 E0 1 (by decide)⟩

/-- C2: when a final build is requested, `train` follows the loop with
exactly the final-build sequence — fold iff `noV ≠ 0`, remake training,
full optimization, remake training, persist beliefs and design points
with `is_final_build = True`. -/
theorem train_final_build_c2 (E : EmuState) (a : Bool)
    (h : E.tv.ftrain = true) : c2Prop E a := by
  unfold c2Prop
  rw [train_trace_eq, if_pos h]

/-- Witness for C2 at a concrete freshly-set-up emulator. -/
theorem train_final_build_c2_w :
    E0.tv.ftrain = true ∧ c2Prop E0 true :=
  ⟨by decide, train_final_build_c2 E0 true (by decide)⟩

/-- C3: the training block grows monotonically: the fold (`incVinT`)
adds exactly the current validation block's size to the training block,
every other operation `train` performs leaves the training-block size
unchanged, and across any whole run of `train` the training-block size
never decreases. -/
theorem train_partition_monotone_c3 :
    (∀ E : EmuState, ((post_incVinT E).1).trainSize = E.trainSize + E.validationSize)
      ∧ (∀ E : EmuState, ((llhoptimize_full E).1).trainSize = E.trainSize)
      ∧ (∀ E : EmuState, ((training_remake E).1).trainSize = E.trainSize)
      ∧ (∀ E : EmuState, ((validation_remake E).1).trainSize = E.trainSize)
      ∧ (∀ E : EmuState, ((post_remake E).1).trainSize = E.trainSize)
      ∧ (∀ E : EmuState, ((mahalanobis_distance E).1).trainSize = E.trainSize)
      ∧ (∀ (E : EmuState) (q : ℚ), ((indiv_standard_error q E).1).trainSize = E.trainSize)
      ∧ (∀ (E : EmuState) (b : Bool), ((final_beliefs b E).1).trainSize = E.trainSize)
      ∧ (∀ (E : EmuState) (b : Bool), ((final_design_points b E).1).trainSize = E.trainSize)
      ∧ (∀ E : EmuState, ((next_Vset E).1).trainSize = E.trainSize)
      ∧ (∀ E : EmuState, ((choose_new_V E).1).trainSize = E.trainSize)
      ∧ (∀ (E : EmuState) (a : Bool), E.trainSize ≤ ((train E a).1).trainSize) := by
  refine ⟨fun E => rfl, fun E => rfl, fun E => rfl, fun E => rfl, fun E => rfl,
    fun E => rfl, fun E q => rfl, fun E b => rfl, fun E b => rfl, fun E => rfl,
    fun E => rfl, ?_⟩
  intro E a
  simp only [train]
  split
  · simp only [post_incVinT, training_remake, llhoptimize_full, final_beliefs,
      final_design_points]
    split
    · have h1 : E.trainSize ≤
          ((trainLoop ((auto_train E a).tv.noV) (auto_train E a)).1).trainSize :=
        trainLoop_trainSize_le ((auto_train E a).tv.noV) (auto_train E a)
      simp only []
      omega
    · have h1 : E.trainSize ≤
          ((trainLoop ((auto_train E a).tv.noV) (auto_train E a)).1).trainSize :=
        trainLoop_trainSize_le ((auto_train E a).tv.noV) (auto_train E a)
      simp only []
      omega
  · simp only []
    exact trainLoop_trainSize_le ((auto_train E a).tv.noV) (auto_train E a)

/-- C5: the whole trace of `train` (hence every collaborator call and
whether another round runs) is determined by the partition configuration
alone — diagnostics values cannot influence it — and every
`indiv_standard_error` call in the trace carries threshold 2 (the
source's `ise=2.0`). -/
theorem train_diag_noninterference_c5 (E F : EmuState) (a : Bool)
    (h : E.tv = F.tv) : c5Prop E F a := by
  unfold c5Prop
  have hauto : (auto_train E a).tv = (auto_train F a).tv := by
    simp only [auto_train, h]
  have hnoV : E.tv.noV = F.tv.noV := by rw [h]
  have hdet := trainLoop_tv_det E.tv.noV (auto_train E a) (auto_train F a) hauto
  refine ⟨?_, ?_, ?_⟩
  · rw [train_trace_eq, train_trace_eq, hdet.1, h]
  · rw [train_tv_eq, train_tv_eq, ← hnoV]
    exact hdet.2
  · rw [train_trace_eq]
    simp only [List.all_append, trainLoop_ise, Bool.true_and]
    split
    · unfold spec_final_events
      split <;> decide
    · decide

/-- Witness for C5: two concrete emulators sharing a partition state but
holding different diagnostic data. -/
theorem train_diag_noninterference_c5_w :
    E0.tv = F0.tv ∧ c5Prop E0 F0 true :=
  ⟨by decide, train_diag_noninterference_c5 E0 F0 true (by decide)⟩

/-- C6: `train` terminates — the loop is insensitive to any fuel of at
least `noV`, it runs at most one round (one Mahalanobis diagnostic) per
validation set, and the final build persists at most once. -/
theorem train_terminates_c6 (E : EmuState) (a : Bool) (f : Nat)
    (h : E.tv.noV ≤ f) : c6Prop E a f := by
  unfold c6Prop
  refine ⟨?_, ?_, ?_⟩
  · have hA := trainLoop_stable (E.tv.noV - E.tv.rounds) (auto_train E a) f
      (Nat.le_refl _) (by omega)
    have hB := trainLoop_stable (E.tv.noV - E.tv.rounds) (auto_train E a) E.tv.noV
      (Nat.le_refl _) (by omega)
    rw [hA, hB]
  · rw [train_trace_eq]
    simp only [List.count_append]
    have h1 : ((trainLoop E.tv.noV (auto_train E a)).2).count Ev.mahal
        ≤ E.tv.noV - E.tv.rounds := trainLoop_mahal_le E.tv.noV (auto_train E a)
    have h2 : (if E.tv.ftrain = true then spec_final_events E.tv.noV
        else []).count Ev.mahal = 0 := by
      split
      · unfold spec_final_events
        simp only [List.count_append]
        split <;> decide
      · decide
    omega
  · rw [train_trace_eq]
    simp only [List.count_append, trainLoop_no_beliefsT]
    have h2 : (if E.tv.ftrain = true then spec_final_events E.tv.noV
        else []).count (Ev.beliefs true) ≤ 1 := by
      split
      · unfold spec_final_events
        simp only [List.count_append]
        split <;> decide
      · decide
    omega

/-- Witness for C6 at a concrete emulator with fuel above `noV`. -/
theorem train_terminates_c6_w : E0.tv.noV ≤ 5 ∧ c6Prop E0 true 5 :=
  ⟨by decide, train_terminates_c6 E0 true 5 (by decide)⟩

/-- C7: in the final-build branch only the training state is remade —
the validation and posterior states keep exactly the values they had
when the loop exited — so the final `final_design_points(E, True)` call
observes a posterior cache carrying the pre-final-optimization
hyperparameter version and the pre-fold training-block size. -/
theorem train_final_frame_c7 (E : EmuState) (a : Bool)
    (hwf : WfCore E) (hf : E.tv.ftrain = true) : c7Prop E a := by
  have hwfL : WfCore ((trainLoop E.tv.noV {E with tv := {E.tv with auto := a}}).1) :=
    trainLoop_wfcore E.tv.noV _ ⟨hwf.1, hwf.2.1, hwf.2.2.1, hwf.2.2.2⟩
  obtain ⟨w1, w2, w3, w4⟩ := hwfL
  simp only [c7Prop, train, auto_train]
  split
  · split
    · rename_i hfb h0
      have hn : ((trainLoop E.tv.noV {E with tv := {E.tv with auto := a}}).1).tv.noV
          = E.tv.noV := by rw [trainLoop_noV]
      rw [hn] at h0
      simp only [post_incVinT, training_remake, llhoptimize_full, final_beliefs,
        final_design_points]
      rw [if_neg h0]
      simp [w3, w4]
    · rename_i hfb h0
      have hn : ((trainLoop E.tv.noV {E with tv := {E.tv with auto := a}}).1).tv.noV
          = E.tv.noV := by rw [trainLoop_noV]
      rw [hn] at h0
      have h0' : E.tv.noV = 0 := by omega
      simp only [post_incVinT, training_remake, llhoptimize_full, final_beliefs,
        final_design_points]
      rw [if_pos h0']
      simp [w3, w4]
  · rename_i hfb
    exact absurd (by rw [do_final_build, trainLoop_ftrain]; exact hf) hfb

/-- Witness for C7 at a concrete freshly-set-up emulator. -/
theorem train_final_frame_c7_w :
    WfCore E0 ∧ E0.tv.ftrain = true ∧ c7Prop E0 true :=
  ⟨⟨rfl, rfl, rfl, rfl⟩, rfl,
    train_final_frame_c7 E0 true ⟨rfl, rfl, rfl, rfl⟩ rfl⟩

end Flow

namespace Ident

/-- Counterexample to C4 as stated: at a concrete configuration, `setup`
does *not* pass both the hyperparameter object and the kernel to all
five constructors — the `Optimize` constructor call receives no kernel
argument (source line 50). -/
theorem setup_shared_c4_cex : sharedToAllFive cfg0 = false := by rfl

/-- C4 as amended: `setup` constructs exactly one hyperparameter object
and exactly one kernel; the hyperparameter object is passed to all five
constructors, the kernel to the two `Data` constructors, the `Posterior`
constructor and the `Emulator` aggregate, while the `Optimize`
constructor reaches the kernel only through the shared training `Data`
it receives. -/
theorem setup_shared_c4_amended : ∀ cfg : ConfigIn, c4AmendedProp cfg := by
  intro cfg
  exact ⟨rfl, rfl, rfl, rfl, rfl, rfl, rfl, rfl, rfl, rfl, rfl, rfl, rfl⟩

theorem headD_of_getq0 {α : Type} {l : List α} {x : α} (d : α)
    (h : l.get? 0 = some x) : l.headD d = x := by
  cases l <;> simp_all

/-- C8: a successful `plot` hands the renderer a freshly allocated
prediction `Data` over the swept grid with no outputs, paired by a
freshly allocated `Posterior` with the emulator's existing training
state and shared objects, and returns the emulator unchanged. -/
theorem plot_frame_c8 (E : Emulator) (pd fd : List Nat) (fv : List ℚ)
    (mv : String) (cl : List String) (r : PlotResult) (F : Emulator)
    (h : plot E pd fd fv mv cl = some (r, F)) : c8Prop E pd fd fv r F := by
  unfold plot at h
  split at h
  · exact absurd h (by simp)
  · simp only [] at h
    split at h
    · exact absurd h (by simp)
    · simp only [Option.some.injEq, Prod.mk.injEq] at h
      obtain ⟨h1, h2⟩ := h
      subst h1
      subst h2
      exact ⟨rfl, rfl, rfl, rfl, rfl, rfl, rfl, rfl, rfl, rfl, rfl⟩

/-- Witness for C8: a concrete successful `plot` call on the emulator
built by `setup`. -/
theorem plot_frame_c8_w :
    plot E1 [0] [] [] "mean" [] = some (plotOut1.1, plotOut1.2)
      ∧ c8Prop E1 [0] [] [] plotOut1.1 plotOut1.2 :=
  ⟨rfl, plot_frame_c8 E1 [0] [] [] "mean" [] plotOut1.1 plotOut1.2 rfl⟩

/-- C9: every successful `plot` uses the fixed resolution 30 per swept
dimension, takes the input dimensionality from the first training input
vector, and gives the prediction `Data` no outputs. -/
theorem plot_constants_c9 (E : Emulator) (pd fd : List Nat) (fv : List ℚ)
    (mv : String) (cl : List String) (r : PlotResult) (F : Emulator)
    (h : plot E pd fd fv mv cl = some (r, F)) : c9Prop E r := by
  unfold plot at h
  split at h
  · exact absurd h (by simp)
  · rename_i x0 hx
    simp only [] at h
    split at h
    · exact absurd h (by simp)
    · simp only [Option.some.injEq, Prod.mk.injEq] at h
      obtain ⟨h1, h2⟩ := h
      subst h1
      subst h2
      refine ⟨rfl, ?_, rfl⟩
      rw [headD_of_getq0 [] hx]

/-- Witness for C9: a concrete successful `plot` call with custom
labels. -/
theorem plot_constants_c9_w :
    plot E1 [0] [] [] "var" ["x", "y"] = some (plotOut2.1, plotOut2.2)
      ∧ c9Prop E1 plotOut2.1 :=
  ⟨rfl, plot_constants_c9 E1 [0] [] [] "var" ["x", "y"] plotOut2.1 plotOut2.2 rfl⟩

/-- C10: a one-element `customLabels` list is read at index 1 in every
branch of the label construction, so the labels fail to build and `plot`
fails, whatever the dimensionality and plotted dimensions. -/
theorem plot_label_crash_c10 (dim : Nat) (pd : List Nat) (output : Nat)
    (E : Emulator) (fd : List Nat) (fv : List ℚ) (mv : String)
    (cl : List String) (h : cl.length = 1) :
    c10Prop dim pd output E fd fv mv cl := by
  obtain ⟨s, rfl⟩ : ∃ s, cl = [s] := by
    cases cl with
    | nil => simp at h
    | cons s t =>
      cases t with
      | nil => exact ⟨s, rfl⟩
      | cons a b => simp at h
  have hlab : ∀ d o : Nat, plotLabels d pd o [s] = none := by
    intro d o
    unfold plotLabels
    split <;> rw [if_neg (by simp)] <;> rfl
  refine ⟨hlab dim output, ?_⟩
  unfold plot
  split
  · rfl
  · rename_i x0 hx
    simp only []
    rw [hlab x0.length E.beliefs.output]

/-- Witness for C10: a concrete `plot` call with a single custom label
fails. -/
theorem plot_label_crash_c10_w :
    (["x"] : List String).length = 1 ∧ c10Prop 3 [0] 0 E1 [] [] "mean" ["x"] :=
  ⟨rfl, plot_label_crash_c10 3 [0] 0 E1 [] [] "mean" ["x"] rfl⟩

end Ident
